import Mathlib

/-!
Verification of the business2api gateway core against its specification.

The definitions below are a shallow embedding of the Go sources:
pure string logic is translated directly; network calls are represented
by their results, passed in as explicit parameters; the account pool
(whose implementation is exercised by `src/pool/pool_upload_test.go` but
whose source file is not part of the tree) is modelled from the
specification text.  Machine time is modelled as `Nat` seconds.
-/

set_option autoImplicit false

namespace B2A

/-! ### String helpers mirroring the Go standard library -/

/-- Model of `strings.Contains(hay, needle)`: `needle` occurs as a
contiguous substring of `hay` (the empty needle always occurs). -/
def listContainsSub (hay needle : List Char) : Bool :=
  needle.isPrefixOf hay ||
    match hay with
    | [] => false
    | _ :: t => listContainsSub t needle

/-- String-level wrapper for `listContainsSub`, modelling both
`strings.Contains` and `bytes.Contains` from the Go sources. -/
def strContains (hay needle : String) : Bool :=
  listContainsSub hay.data needle.data

/-- Whitespace recognizer used by the model of `strings.TrimSpace`. -/
def isWs (c : Char) : Bool :=
  c = ' ' || c = '\t' || c = '\n' || c = '\r'

/-- Model of `strings.TrimSpace` over character lists: drop whitespace
from the front, then from the back. -/
def trimChars (l : List Char) : List Char :=
  (l.dropWhile isWs).rdropWhile isWs

/-- Model of `strings.TrimSpace`. -/
def strTrim (s : String) : String :=
  ⟨trimChars s.data⟩

theorem dropWhile_rdropWhile_dropWhile (l : List Char) :
    List.dropWhile isWs ((List.dropWhile isWs l).rdropWhile isWs)
      = (List.dropWhile isWs l).rdropWhile isWs := by
  obtain ⟨s, hs⟩ := List.rdropWhile_prefix isWs (List.dropWhile isWs l)
  cases hr : (List.dropWhile isWs l).rdropWhile isWs with
  | nil => simp
  | cons c t =>
    have hm2 : List.dropWhile isWs l = c :: (t ++ s) := by
      rw [← hs, hr]; simp
    have hc : ¬ isWs c = true := by
      intro hcc
      have hm : List.dropWhile isWs (List.dropWhile isWs l)
          = List.dropWhile isWs l := List.dropWhile_idempotent isWs l
      rw [hm2] at hm
      rw [List.dropWhile_cons_of_pos hcc] at hm
      have hlen : (List.dropWhile isWs (t ++ s)).length = (t ++ s).length + 1 := by
        rw [hm]; simp
      have hle : (List.dropWhile isWs (t ++ s)).length ≤ (t ++ s).length :=
        (List.dropWhile_suffix isWs).sublist.length_le
      omega
    simp [List.dropWhile_cons_of_neg hc]

theorem trimChars_idem (l : List Char) : trimChars (trimChars l) = trimChars l := by
  unfold trimChars
  rw [dropWhile_rdropWhile_dropWhile, List.rdropWhile_idempotent]

theorem strTrim_idem (s : String) : strTrim (strTrim s) = strTrim s := by
  unfold strTrim
  simp [trimChars_idem]

/-! ### API-key authentication (`main.go`: `extractAPIKey`,
`isValidAPIKey`, `apiKeyAuth`, `GetAPIKeys`) -/

/-- Model of `extractAPIKey` (main.go:3194): a `Bearer `-prefixed
`Authorization` header wins, else the `X-API-Key` header; the result is
trimmed. -/
def extractAPIKey (authHeader xApiKey : String) : String :=
  if "Bearer ".data.isPrefixOf authHeader.data then
    strTrim ⟨authHeader.data.drop 7⟩
  else
    strTrim xApiKey

/-- Model of `isValidAPIKey` (main.go:3202): trim, reject empty,
then exact membership in the configured key list. -/
def isValidAPIKey (keys : List String) (apiKey : String) : Bool :=
  let k := strTrim apiKey
  if k = "" then false else keys.contains k

/-- Outcome of the authentication middleware: either the request is
allowed through to the handler chain or it is rejected with HTTP 401. -/
inductive AuthDecision where
  | accept
  | reject401 (msg : String)
  deriving DecidableEq, Repr

/-- Model of the `apiKeyAuth` middleware (main.go:3232): an empty
configured key list accepts everything; otherwise the extracted key must
be non-empty and valid. -/
def apiKeyAuth (keys : List String) (authHeader xApiKey : String) : AuthDecision :=
  if keys.length = 0 then .accept
  else
    let apiKey := extractAPIKey authHeader xApiKey
    if apiKey = "" then .reject401 "Missing API key"
    else if ¬ isValidAPIKey keys apiKey then .reject401 "Invalid API key"
    else .accept

theorem extractAPIKey_trimmed (authHeader xApiKey : String) :
    strTrim (extractAPIKey authHeader xApiKey) = extractAPIKey authHeader xApiKey := by
  unfold extractAPIKey
  split
  · exact strTrim_idem _
  · exact strTrim_idem _

/-- C10 (counterexample): with the configured key list `[""]` and no
credential headers, the extracted key (the empty string) is literally a
member of the configured key list, yet the middleware rejects the
request with 401 instead of accepting it.  This refutes the claimed
"accepted if and only if the key equals one of the configured keys". -/
theorem c10_auth_counterexample :
    ((([""] : List String)).contains (extractAPIKey "" "") = true) ∧
    apiKeyAuth [""] "" "" = .reject401 "Missing API key" := by
  constructor
  · decide
  · decide

/-- C10 (amended): an empty configured key list accepts every request
without a credential check; a non-empty list accepts a request exactly
when the key extracted from the `Authorization: Bearer` header or the
`X-API-Key` header is non-empty and equals one of the configured keys,
and every rejected request is answered with HTTP 401. -/
theorem c10_auth_amended (keys : List String) (authHeader xApiKey : String) :
    (keys = [] → apiKeyAuth keys authHeader xApiKey = .accept) ∧
    (keys ≠ [] →
      ((apiKeyAuth keys authHeader xApiKey = .accept ↔
        (extractAPIKey authHeader xApiKey ≠ "" ∧
          keys.contains (extractAPIKey authHeader xApiKey) = true)) ∧
      (apiKeyAuth keys authHeader xApiKey ≠ .accept →
        ∃ m, apiKeyAuth keys authHeader xApiKey = .reject401 m))) := by
  constructor
  · intro h
    subst h
    simp [apiKeyAuth]
  · intro hne
    have hlen : ¬ keys.length = 0 := by
      simpa [List.length_eq_zero] using hne
    have htrim := extractAPIKey_trimmed authHeader xApiKey
    constructor
    · unfold apiKeyAuth
      rw [if_neg hlen]
      by_cases hk : extractAPIKey authHeader xApiKey = ""
      · simp [hk]
      · simp only [hk, if_neg hk]
        unfold isValidAPIKey
        rw [htrim]
        simp [hk]
    · intro hnaccept
      by_cases hk : extractAPIKey authHeader xApiKey = ""
      · exact ⟨"Missing API key", by simp [apiKeyAuth, hlen, hk]⟩
      · by_cases hv : isValidAPIKey keys (extractAPIKey authHeader xApiKey) = true
        · exact absurd (by simp [apiKeyAuth, hlen, hk, hv]) hnaccept
        · exact ⟨"Invalid API key", by simp [apiKeyAuth, hlen, hk, hv]⟩

/-- C10 witness: a request carrying `Authorization: Bearer k` against
the configured list `["k"]` is accepted, as the amended theorem
predicts. -/
theorem c10_auth_amended_witness :
    (["k"] : List String) ≠ [] ∧ apiKeyAuth ["k"] "Bearer k" "" = .accept :=
  ⟨by decide,
    ((c10_auth_amended ["k"] "Bearer k" "").2 (by decide)).1.mpr (by decide)⟩

/-! ### Session creation with retry (`main.go`: `createSessionWithRetry`,
and lines 2535-2544 of `streamChat`) -/

/-- Result of one `createSessionOnce` network call, abstracted to its
observable outcome: a session name or an error message. -/
inductive SessionResult where
  | ok (name : String)
  | err (msg : String)
  deriving DecidableEq, Repr

/-- Loop body of `createSessionWithRetry` (main.go:1207): `attempt i` is
the outcome of the `i`-th `createSessionOnce` call; an error containing
"400" is retried, one containing "401" or "403" is returned at once,
any other error is retried; when the retry budget is exhausted the last
error is returned.  The fuel argument counts the remaining iterations
of the `for retry := 0; retry < maxRetries` loop. -/
def csLoop (attempt : Nat → SessionResult) : Nat → Nat → String → Except String String
  | 0, _, lastErr => .error lastErr
  | fuel + 1, retry, _ =>
    match attempt retry with
    | .ok name => .ok name
    | .err msg =>
      if strContains msg "400" then csLoop attempt fuel (retry + 1) msg
      else if strContains msg "401" || strContains msg "403" then .error msg
      else csLoop attempt fuel (retry + 1) msg

/-- Model of `createSessionWithRetry(jwt, configID, origAuth, maxRetries)`
(main.go:1207), starting the loop at retry 0 with a nil last error. -/
def createSessionWithRetry (attempt : Nat → SessionResult) (maxRetries : Nat) :
    Except String String :=
  csLoop attempt maxRetries 0 ""

/-- Observable effect of the session-creation step of one attempt of the
chat loop (main.go:2535-2544). -/
structure SessionAttemptStep where
  aborted : Bool
  markedNeedsRefresh : Bool
  session : Option String
  deriving DecidableEq, Repr

/-- Model of main.go:2535-2544: `createSession` (= `createSessionWithRetry`
with 3 retries) is called; on error the attempt is aborted (`continue`:
no media upload and no `streamAssist` call for this account).  The
source tests the error text for "401"/"UNAUTHENTICATED", but the
`pool.Pool.MarkNeedsRefresh(acc)` call in the body of that test is
commented out (main.go:2540), so no account is ever marked here. -/
def sessionStep (attempt : Nat → SessionResult) : SessionAttemptStep :=
  match createSessionWithRetry attempt 3 with
  | .ok s => { aborted := false, markedNeedsRefresh := false, session := some s }
  | .error _ => { aborted := true, markedNeedsRefresh := false, session := none }

/-- A session-creation outcome that always fails with an HTTP 401 error
message, as produced by `createSessionOnce` for an unauthenticated
account. -/
def att401 : Nat → SessionResult :=
  fun _ => .err "createSession 失败: 401 UNAUTHENTICATED"

/-- C1 (counterexample): when session creation fails with a 401 error the
attempt is aborted, but the account is NOT marked as needing refresh —
the `MarkNeedsRefresh` call at main.go:2540 is commented out — refuting
the claim that the account is marked. -/
theorem c1_session_marking_counterexample :
    createSessionWithRetry att401 3 = .error "createSession 失败: 401 UNAUTHENTICATED" ∧
    strContains "createSession 失败: 401 UNAUTHENTICATED" "401" = true ∧
    (sessionStep att401).aborted = true ∧
    (sessionStep att401).markedNeedsRefresh = false := by
  refine ⟨rfl, by decide, rfl, rfl⟩

/-- C1 (amended): a session-creation failure whose message reports
401 or 403 (and not 400) ends `createSessionWithRetry` immediately with
that error, at whatever retry position it occurs; and every
session-creation failure aborts the attempt — skipping media upload and
`streamAssist` for that account — without marking the account as
needing refresh (the marking call is disabled in the source). -/
theorem c1_session_401_aborts_without_mark (attempt : Nat → SessionResult)
    (msg : String)
    (h400 : strContains msg "400" = false)
    (h41 : strContains msg "401" = true ∨ strContains msg "403" = true) :
    (∀ fuel retry lastErr, attempt retry = .err msg →
      csLoop attempt (fuel + 1) retry lastErr = .error msg) ∧
    (∀ m, createSessionWithRetry attempt 3 = .error m →
      (sessionStep attempt).aborted = true ∧
      (sessionStep attempt).markedNeedsRefresh = false) := by
  constructor
  · intro fuel retry lastErr hat
    have h41b : (strContains msg "401" || strContains msg "403") = true := by
      rcases h41 with h | h <;> simp [h]
    simp [csLoop, hat, h400, h41b]
  · intro m hm
    unfold sessionStep
    rw [hm]
    exact ⟨rfl, rfl⟩

/-- C1 witness: with every `createSessionOnce` call answering 401, the
amended theorem applies: the loop stops at the first call and the
attempt is aborted unmarked. -/
theorem c1_session_401_witness :
    strContains "createSession 失败: 401 UNAUTHENTICATED" "400" = false ∧
    csLoop att401 3 0 "" = .error "createSession 失败: 401 UNAUTHENTICATED" ∧
    (sessionStep att401).aborted = true ∧
    (sessionStep att401).markedNeedsRefresh = false := by
  have h := c1_session_401_aborts_without_mark att401
    "createSession 失败: 401 UNAUTHENTICATED" (by decide) (Or.inl (by decide))
  refine ⟨by decide, ?_, ?_⟩
  · exact h.1 2 0 "" rfl
  · exact h.2 "createSession 失败: 401 UNAUTHENTICATED" (h.1 2 0 "" rfl)

/-! ### The chat attempt loop (`main.go`: `streamChat`, lines 2504-2748)
and its classification of upstream `streamAssist` statuses -/

/-- Bookkeeping calls made on the account used by one attempt. -/
inductive AccountAction where
  | markNeedsRefresh
  | setLastUsed (t : Nat)
  | markUsed (ok : Bool)
  deriving DecidableEq, Repr

/-- Effect of one error iteration of the attempt loop. -/
structure IterEffect where
  actions : List AccountAction
  consumesSlot : Bool
  deriving DecidableEq, Repr

/-- Classification of a non-200 `streamAssist` status (main.go:2650-2681):
401/403 marks the account for refresh and counts as an attempt; 429 sets
`acc.LastUsed = now + 3 * UseCooldown`, marks the account used-failed and
decrements the loop counter (`retry--`, so the slot is not consumed);
400 and every other status mark used-failed and count as an attempt. -/
def classifyErrorStatus (now useCooldown code : Nat) : IterEffect :=
  if code = 401 ∨ code = 403 then
    { actions := [.markNeedsRefresh, .markUsed false], consumesSlot := true }
  else if code = 429 then
    { actions := [.setLastUsed (now + 3 * useCooldown), .markUsed false],
      consumesSlot := false }
  else if code = 400 then
    { actions := [.markUsed false], consumesSlot := true }
  else
    { actions := [.markUsed false], consumesSlot := true }

/-- Outcome of the upstream `streamAssist` call of one attempt. -/
inductive AttemptResult where
  | status (code : Nat)
  | success
  deriving DecidableEq, Repr

/-- Model of the attempt loop `for retry := 0; retry < maxRetries`
(main.go:2504, `maxRetries = 3` at main.go:1928): `outcomes i` is the
result of the `i`-th upstream call; the trace lists, per upstream call,
the account actions taken; the Bool reports success.  The fuel bounds
the number of iterations (a 429 does not advance the loop counter, so
the Go loop alone does not bound the iteration count). -/
def runAttempts (outcomes : Nat → AttemptResult) (now useCooldown : Nat) :
    Nat → Nat → Nat → List (Nat × List AccountAction) × Bool
  | 0, _, _ => ([], false)
  | fuel + 1, idx, retry =>
    if retry < 3 then
      match outcomes idx with
      | .success => ([(idx, [.markUsed true])], true)
      | .status code =>
        let ie := classifyErrorStatus now useCooldown code
        let rest := runAttempts outcomes now useCooldown fuel (idx + 1)
          (if ie.consumesSlot then retry + 1 else retry)
        ((idx, ie.actions) :: rest.1, rest.2)
    else ([], false)

/-- Upstream answers 429 on the first call and 400 afterwards. -/
def outcomes429First : Nat → AttemptResult :=
  fun i => if i = 0 then .status 429 else .status 400

/-- Upstream answers 400 on every call. -/
def outcomes400 : Nat → AttemptResult :=
  fun _ => .status 400

/-- C5: an upstream 429 extends the used account's cooldown to three
times the use-cooldown (`LastUsed := now + 3 * UseCooldown`), marks it
used-failed without flagging it for refresh, and rotates to the next
account with the loop counter unchanged (`retry--` compensates the
loop's `retry++`); consequently a 429 answer does not consume one of
the three retry slots: a 429 followed by persistent 400s yields four
upstream calls where persistent 400s alone yield three. -/
theorem c5_429_triple_cooldown_no_slot (outcomes : Nat → AttemptResult)
    (now useCooldown fuel idx retry : Nat)
    (hlt : retry < 3) (h429 : outcomes idx = .status 429) :
    runAttempts outcomes now useCooldown (fuel + 1) idx retry =
      ((idx, [.setLastUsed (now + 3 * useCooldown), .markUsed false]) ::
        (runAttempts outcomes now useCooldown fuel (idx + 1) retry).1,
       (runAttempts outcomes now useCooldown fuel (idx + 1) retry).2) ∧
    (runAttempts outcomes429First 7 5 10 0 0).1 =
      [(0, [.setLastUsed (7 + 3 * 5), .markUsed false]),
       (1, [.markUsed false]), (2, [.markUsed false]), (3, [.markUsed false])] ∧
    (runAttempts outcomes400 7 5 10 0 0).1 =
      [(0, [.markUsed false]), (1, [.markUsed false]), (2, [.markUsed false])] := by
  refine ⟨?_, by decide, by decide⟩
  simp [runAttempts, hlt, h429, classifyErrorStatus]

/-- C5 witness: instantiating the loop-step part of the theorem at the
concrete 429-first trace. -/
theorem c5_429_witness :
    (0 : Nat) < 3 ∧ outcomes429First 0 = .status 429 ∧
    runAttempts outcomes429First 7 5 10 0 0 =
      ((0, [.setLastUsed (7 + 3 * 5), .markUsed false]) ::
        (runAttempts outcomes429First 7 5 9 1 0).1,
       (runAttempts outcomes429First 7 5 9 1 0).2) :=
  ⟨by decide, by decide,
    (c5_429_triple_cooldown_no_slot outcomes429First 7 5 9 0 0 (by decide) (by decide)).1⟩

/-! ### Client-media download failures (`main.go`: `downloadMedia`
lines 1824-1837, and `streamChat` lines 2558-2592) -/

/-- Error classification of `downloadMedia` by upstream HTTP status
(main.go:1831-1837): 401/403 produce a tagged `UPSTREAM_<code>` error
with the media-download suffix, any other status ≥ 400 a tagged error
without it, and lower statuses succeed. -/
def downloadMediaStatusError (code : Nat) : Option String :=
  if code = 401 ∨ code = 403 then
    some ("UPSTREAM_" ++ toString code ++ ": 上游返回状态码 " ++ toString code ++ " 多媒体下载失败")
  else if 400 ≤ code then
    some ("UPSTREAM_" ++ toString code ++ ": 上游返回状态码 " ++ toString code)
  else none

/-- Model of `downloadMedia` outcome: the payload (base64 data and MIME
type after normalization) abstracts the successful body processing. -/
def downloadMedia (code : Nat) (payload : String × String) :
    Except String (String × String) :=
  match downloadMediaStatusError code with
  | some e => .error e
  | none => .ok payload

/-- Outcome of processing one URL media part inside an attempt. -/
inductive MediaStepOutcome where
  | respond500 (errType errCode msg : String)
  | abortAttempt
  | uploaded (fileId : String)
  deriving DecidableEq, Repr

/-- Model of main.go:2558-2586 for a URL media part: try the direct
URL upload; on rejection download the bytes — a download error tagged
`UPSTREAM_401`/`UPSTREAM_403` is answered at once with an HTTP 500 JSON
body whose `error.code` is `media_download_failed` (the handler
returns: no rotation, and no `MarkNeedsRefresh` occurs on this path),
any other download error aborts the attempt; on download success the
bytes are uploaded inline, a failure of which aborts the attempt. -/
def urlMediaStep (urlUpload : Except String String)
    (download : Except String (String × String))
    (inlineUpload : String → String → Except String String) : MediaStepOutcome :=
  match urlUpload with
  | .ok fid => .uploaded fid
  | .error _ =>
    match download with
    | .error dlErr =>
      if strContains dlErr "UPSTREAM_401" || strContains dlErr "UPSTREAM_403" then
        .respond500 "upstream_error" "media_download_failed" dlErr
      else .abortAttempt
    | .ok (dataB64, mime) =>
      match inlineUpload dataB64 mime with
      | .ok fid => .uploaded fid
      | .error _ => .abortAttempt

/-- C6: whenever the download of a client-supplied media URL answers
HTTP 401 or 403, the pipeline immediately responds with an HTTP 500
JSON body whose `error.code` equals `media_download_failed` — it does
not rotate to another account (`abortAttempt`) and performs no account
flagging on this path. -/
theorem c6_media_download_401_surfaces (code : Nat)
    (hcode : code = 401 ∨ code = 403)
    (uploadErr : String) (payload : String × String)
    (inlineUpload : String → String → Except String String) :
    urlMediaStep (.error uploadErr) (downloadMedia code payload) inlineUpload =
      .respond500 "upstream_error" "media_download_failed"
        ("UPSTREAM_" ++ toString code ++ ": 上游返回状态码 " ++ toString code ++ " 多媒体下载失败") := by
  rcases hcode with h | h <;> subst h <;>
    simp [urlMediaStep, downloadMedia, downloadMediaStatusError] <;> decide

/-- C6 witness: the theorem at status 401 with a concrete failed URL
upload. -/
theorem c6_media_download_401_witness :
    (401 = 401 ∨ 401 = 403) ∧
    urlMediaStep (.error "url upload rejected") (downloadMedia 401 ("", ""))
        (fun _ _ => .error "unused") =
      .respond500 "upstream_error" "media_download_failed"
        ("UPSTREAM_" ++ toString 401 ++ ": 上游返回状态码 " ++ toString 401 ++ " 多媒体下载失败") :=
  ⟨Or.inl rfl,
    c6_media_download_401_surfaces 401 (Or.inl rfl) "url upload rejected" ("", "")
      (fun _ _ => .error "unused")⟩

/-! ### SSE streaming output (`main.go`: `streamChat` streaming paths) -/

/-- Model of `formatImageAsMarkdown` (main.go:1661). -/
def formatImageAsMarkdown (mimeType base64Data : String) : String :=
  "![image](data:" ++ mimeType ++ ";base64," ++ base64Data ++ ")"

/-- One SSE frame emitted by the gateway; every constructor but `done`
stands for a `data: <chunk JSON>` frame built by `createChunk`, and
`done` is the literal terminator frame `data: [DONE]`. -/
inductive SSEFrame where
  | role
  | content (s : String)
  | reasoning (s : String)
  | toolCallFrame (name args : String)
  | finish (reason : String)
  | done
  deriving DecidableEq, Repr

/-- The `content` object of one upstream reply, as inspected by the
streaming loop (main.go:2905-2998): a thought flag, a text field, and
optional inline data, file reference and function call. -/
structure ReplyContent where
  thought : Bool
  text : String
  inlineData : Option (String × String)
  fileRef : Option (String × String)
  funcCall : Option (String × String)

/-- Frames, pending file downloads and tool-call flag produced by a
single reply content (main.go:2931-2996): a thought reply only emits a
reasoning frame and skips the remaining checks; otherwise non-empty
text, well-formed inline data and a function call each emit a frame,
and a file reference is queued for download. -/
def emitItem (c : ReplyContent) : List SSEFrame × List (String × String) × Bool :=
  if c.thought then
    ((if c.text ≠ "" then [SSEFrame.reasoning c.text] else []), [], false)
  else
    let tf := if c.text ≠ "" then [SSEFrame.content c.text] else []
    let inf :=
      match c.inlineData with
      | some (mime, dat) =>
        if mime ≠ "" ∧ dat ≠ "" then
          [SSEFrame.content (formatImageAsMarkdown mime dat)]
        else []
      | none => []
    let pend :=
      match c.fileRef with
      | some (fid, mime) => if fid ≠ "" then [(fid, mime)] else []
      | none => []
    match c.funcCall with
    | some (n, a) => (tf ++ inf ++ [SSEFrame.toolCallFrame n a], pend, true)
    | none => (tf ++ inf, pend, false)

/-- Streaming emission over the whole upstream reply list, accumulating
frames, pending files and the tool-call flag in arrival order. -/
def emitItems (items : List ReplyContent) : List SSEFrame × List (String × String) × Bool :=
  items.foldl
    (fun acc c =>
      let e := emitItem c
      (acc.1 ++ e.1, acc.2.1 ++ e.2.1, acc.2.2 || e.2.2))
    ([], [], false)

/-- Result of downloading one generated file (`downloadGeneratedFile`):
either the base64 payload, or an error whose flag records whether it is
the `ErrDownloadNeedsRetry` sentinel. -/
inductive DlResult where
  | ok (dataB64 : String)
  | err (needsRetry : Bool) (msg : String)
  deriving DecidableEq, Repr

/-- Model of the generated-file phase (main.go:2999-3061): files are
downloaded (in parallel) and emitted in their original order; if every
download failed, a single error frame is emitted whose text depends on
whether any failure was the needs-retry sentinel. -/
def filesFrames (pend : List (String × String)) (dl : String → DlResult) : List SSEFrame :=
  if pend.isEmpty then []
  else
    let results := pend.map (fun pf => (pf.2, dl pf.1))
    let succ := results.filterMap (fun pr =>
      match pr.2 with
      | .ok d => some (SSEFrame.content (formatImageAsMarkdown pr.1 d))
      | .err _ _ => none)
    let errs := results.filterMap (fun pr =>
      match pr.2 with
      | .ok _ => none
      | .err nr m => some (nr, m))
    if succ.isEmpty ∧ ¬ errs.isEmpty then
      [SSEFrame.content
        (if errs.any (fun e => e.1) then
          "[提示] 文件下载认证失败，请重新发送请求（系统将自动切换账号）"
        else "生成的文件下载失败: " ++ (errs.getLastD (false, "")).2)]
    else succ

/-- The terminating paths of `streamChat` once streaming has started:
no available account (main.go:2506-2520), all attempts failed
(main.go:2751-2770), the media-download 401/403 abort (main.go:2562-2576,
which writes a JSON 500 body and returns), empty upstream body
(main.go:2775-2789), parse failure (main.go:2807-2828) and the success
path (main.go:2893-3071). -/
inductive ChatOutcome where
  | noAccount
  | allFailed (errMsg : String)
  | mediaAbort (dlErr : String)
  | emptyBody
  | parseFailure
  | success (items : List ReplyContent)

/-- SSE frames written for a streaming request, one branch per
terminating path of `streamChat`.  The initial role chunk is sent
before the attempt loop (main.go:2491-2502).  On the media-abort path
the handler answers with `c.JSON(500, …)` and returns, so no further
SSE frame — in particular no finish chunk and no `[DONE]` — is
written. -/
def sseStream (outcome : ChatOutcome) (dl : String → DlResult) : List SSEFrame :=
  SSEFrame.role ::
    match outcome with
    | .noAccount => [.content "[错误] 没有可用账号", .finish "stop", .done]
    | .allFailed e => [.content ("[错误] " ++ e), .finish "stop", .done]
    | .mediaAbort _ => []
    | .emptyBody => [.content "[错误] 上游返回空响应", .finish "stop", .done]
    | .parseFailure => [.content "[错误] 响应解析失败", .finish "stop", .done]
    | .success items =>
      let e := emitItems items
      e.1 ++ filesFrames e.2.1 dl ++
        [.finish (if e.2.2 then "tool_calls" else "stop"), .done]

/-- A frame list ends with a finish-reason chunk immediately followed by
the `[DONE]` terminator. -/
def endsFinishDone (fs : List SSEFrame) : Bool :=
  match fs.reverse with
  | .done :: .finish _ :: _ => true
  | _ => false

/-- C7: the five enumerated terminating paths (no account, all attempts
failed, empty body, parse failure, success) of a started SSE stream all
end with a finish-reason chunk followed by the literal `data: [DONE]`
frame; but the media-download 401/403 abort path ends a started stream
with neither, refuting the claim's universal "a started SSE stream
never ends without the [DONE] terminator" and the specification's
"SSE streams always terminate with a [DONE] frame even on error". -/
theorem c7_sse_done_termination :
    (∀ dl, endsFinishDone (sseStream .noAccount dl) = true) ∧
    (∀ e dl, endsFinishDone (sseStream (.allFailed e) dl) = true) ∧
    (∀ dl, endsFinishDone (sseStream .emptyBody dl) = true) ∧
    (∀ dl, endsFinishDone (sseStream .parseFailure dl) = true) ∧
    (∀ items dl, endsFinishDone (sseStream (.success items) dl) = true) ∧
    endsFinishDone
      (sseStream (.mediaAbort "UPSTREAM_401: 上游返回状态码 401 多媒体下载失败")
        (fun _ => .ok "")) = false := by
  refine ⟨fun dl => rfl, fun e dl => rfl, fun dl => rfl, fun dl => rfl, ?_, rfl⟩
  intro items dl
  simp only [sseStream, endsFinishDone]
  rw [List.reverse_cons, List.reverse_append]
  rfl

/-! ### Account pool and the external-refresh protocol.

The pool implementation is exercised by `src/pool/pool_upload_test.go`
but its source file is not part of the tree, so the operations below
are modelled from the specification (§3, §4.2, §4.3), with field names
taken from the test file.  Time is `Nat` seconds; task ids are drawn
from a counter threaded through the pool state, standing in for the
fresh UUIDs of the implementation. -/

/-- An HTTP cookie as persisted in an account file. -/
structure Cookie where
  name : String
  value : String
  domain : String
  deriving DecidableEq, Repr

/-- Account status (spec §3): closed set, `pending_external` marking
accounts parked for the external registrar. -/
inductive AccStatus where
  | ready
  | pending
  | cooldown
  | pendingExternal
  | invalid
  deriving DecidableEq, Repr

/-- Persisted account fields (spec §3 and §6 "Account JSON"). -/
structure AccountData where
  email : String
  fullName : String
  mailProvider : String
  mailPassword : String
  authorization : String
  configID : String
  csesidx : String
  cookies : List Cookie
  deriving DecidableEq, Repr

/-- Modelled from the spec: an account's runtime record with the
external-refresh bookkeeping fields (task id, lease owner, lease
deadline, consecutive fail count, next retry time). -/
structure Account where
  data : AccountData
  status : AccStatus
  externalTaskID : String
  externalLeaseOwner : String
  externalLeaseUntil : Nat
  externalFailCount : Nat
  externalRetryAt : Nat
  deriving DecidableEq, Repr

/-- The `AccountUploadRequest` of the registrar upload endpoint, with
the fields used by `pool_upload_test.go`. -/
structure UploadReq where
  email : String
  fullName : String
  mailProvider : String
  mailPassword : String
  authorization : String
  configID : String
  csesidx : String
  taskID : String
  workerID : String
  cookies : List Cookie
  isNew : Bool
  deriving DecidableEq, Repr

/-- A claim slip handed to an external worker: account email, fresh
task id and the claiming worker. -/
structure Slip where
  email : String
  taskID : String
  workerID : String
  deriving DecidableEq, Repr

/-- Modelled from the spec: pool state — the account list, the
monotone `refresh_lease_expired_total` counter and the fresh-task-id
counter. -/
structure PoolState where
  accounts : List Account
  leaseExpiredTotal : Nat
  taskSeq : Nat
  deriving DecidableEq, Repr

/-- Fresh task-id generator (stands in for UUIDs; injective in the
counter and never empty). -/
def mkTaskId (n : Nat) : String :=
  "task-" ++ toString n

theorem mkTaskId_ne_empty (n : Nat) : mkTaskId n ≠ "" := by
  intro h
  have hd := congrArg String.data h
  simp [mkTaskId, String.data_append] at hd

/-- An account currently holds an unexpired lease (spec §4.2: a task is
owned until its lease deadline passes). -/
def leaseActive (now : Nat) (a : Account) : Bool :=
  a.externalTaskID ≠ "" && now < a.externalLeaseUntil

/-- Modelled from the spec (§4.2): an account is claimable when it is
`pending_external`, holds no unexpired lease, and its backoff window
has passed (`now ≥ external_retry_at`). -/
def claimEligible (now : Nat) (a : Account) : Bool :=
  a.status = AccStatus.pendingExternal && ! leaseActive now a &&
    a.externalRetryAt ≤ now

/-- Modelled from the spec: the atomic scan of
`ClaimExternalRefreshTasks(workerId, limit, leaseSec)` (§4.2) —
assign up to `lim` eligible accounts to the worker with a fresh task id
and `lease_until = now + leaseSec`; an expired lease that is reclaimed
increments the `lease_expired` counter. -/
def claimGo (now : Nat) (workerId : String) (leaseSec : Nat) :
    List Account → Nat → Nat → Nat → List Slip × List Account × Nat × Nat
  | [], _, seq, expired => ([], [], seq, expired)
  | a :: rest, lim, seq, expired =>
    if 0 < lim ∧ claimEligible now a = true then
      let expired2 := expired +
        (if a.externalTaskID ≠ "" ∧ a.externalLeaseUntil ≤ now then 1 else 0)
      let tid := mkTaskId seq
      let a2 := { a with
        externalTaskID := tid,
        externalLeaseOwner := workerId,
        externalLeaseUntil := now + leaseSec }
      let r := claimGo now workerId leaseSec rest (lim - 1) (seq + 1) expired2
      (⟨a.data.email, tid, workerId⟩ :: r.1, a2 :: r.2.1, r.2.2.1, r.2.2.2)
    else
      let r := claimGo now workerId leaseSec rest lim seq expired
      (r.1, a :: r.2.1, r.2.2.1, r.2.2.2)

/-- Modelled from the spec: `ClaimExternalRefreshTasks` over the pool
state, returning the claim slips and the updated state. -/
def claimTasks (now : Nat) (workerId : String) (lim leaseSec : Nat)
    (p : PoolState) : List Slip × PoolState :=
  let r := claimGo now workerId leaseSec p.accounts lim p.taskSeq p.leaseExpiredTotal
  (r.1, { accounts := r.2.1, leaseExpiredTotal := r.2.2.2, taskSeq := r.2.2.1 })

/-- Backoff ceiling in seconds (spec §4.2 recommends 10 minutes). -/
def backoffCeiling : Nat := 600

/-- Modelled from the spec (§4.2): `backoff(n) = 30s × 2^(n-1)` capped
at the ceiling. -/
def backoff (n : Nat) : Nat :=
  min (30 * 2 ^ (n - 1)) backoffCeiling

/-- Modelled from the spec (§4.2): the per-account effect of
`MarkExternalRefreshFailed` — clear task-id and lease fields, increment
the consecutive fail counter, and set
`external_retry_at = now + backoff(n)` for the new count `n`. -/
def failAccount (now : Nat) (a : Account) : Account :=
  { a with
    externalTaskID := "",
    externalLeaseOwner := "",
    externalLeaseUntil := 0,
    externalFailCount := a.externalFailCount + 1,
    externalRetryAt := now + backoff (a.externalFailCount + 1) }

/-- Modelled from the spec: `MarkExternalRefreshFailed(taskId, workerId,
reason)` verifies that some account carries the matching task id and
lease owner, and applies `failAccount` to it. -/
def markExternalRefreshFailed (now : Nat) (taskId workerId : String)
    (p : PoolState) : Except String PoolState :=
  if p.accounts.any (fun a =>
      a.externalTaskID = taskId && a.externalLeaseOwner = workerId) then
    .ok { p with accounts := p.accounts.map (fun a =>
      if a.externalTaskID = taskId && a.externalLeaseOwner = workerId then
        failAccount now a
      else a) }
  else .error "task not found"

/-- Modelled from the spec (§4.3): upload validation — required fields
and presence of the `__Secure-C_SES` session cookie. -/
def validUpload (r : UploadReq) : Bool :=
  r.email ≠ "" && r.authorization ≠ "" && r.configID ≠ "" &&
    r.cookies.any (fun c => c.name = "__Secure-C_SES" && c.value ≠ "")

/-- Modelled from the spec (§4.3): merge an upload into an existing
record — the human-only fields `full_name`, `mail_provider` and
`mail_password` are preserved from the prior record when the upload
leaves them empty; the credential fields (authorization, cookies,
config id, csesidx) always come from the upload. -/
def mergeUpload (old : AccountData) (r : UploadReq) : AccountData :=
  { email := old.email,
    fullName := if r.fullName = "" then old.fullName else r.fullName,
    mailProvider := if r.mailProvider = "" then old.mailProvider else r.mailProvider,
    mailPassword := if r.mailPassword = "" then old.mailPassword else r.mailPassword,
    authorization := r.authorization,
    configID := r.configID,
    csesidx := r.csesidx,
    cookies := r.cookies }

/-- Modelled from the spec (§4.3): applying a refresh upload to the
matched account — merged data, status `pending`, task-id and lease
fields cleared, backoff bookkeeping reset. -/
def uploadApply (a : Account) (r : UploadReq) : Account :=
  { data := mergeUpload a.data r,
    status := AccStatus.pending,
    externalTaskID := "",
    externalLeaseOwner := "",
    externalLeaseUntil := 0,
    externalFailCount := 0,
    externalRetryAt := 0 }

/-- Modelled from the spec (§4.3): a fresh account created from an
upload that matches no existing record. -/
def newAccountFromUpload (r : UploadReq) : Account :=
  { data :=
      { email := r.email, fullName := r.fullName,
        mailProvider := r.mailProvider, mailPassword := r.mailPassword,
        authorization := r.authorization, configID := r.configID,
        csesidx := r.csesidx, cookies := r.cookies },
    status := AccStatus.pending,
    externalTaskID := "", externalLeaseOwner := "", externalLeaseUntil := 0,
    externalFailCount := 0, externalRetryAt := 0 }

/-- Modelled from the spec (§4.3) and `pool_upload_test.go`:
`ProcessAccountUpload` — validate, then merge into the record with the
same email (the refresh path used when `task_id`/`worker_id` match an
active lease), else create a new `pending` account. -/
def processAccountUpload (p : PoolState) (r : UploadReq) :
    Except String PoolState :=
  if ¬ validUpload r = true then .error "ErrInvalidAccountUpload"
  else if p.accounts.any (fun a => a.data.email = r.email) then
    .ok { p with accounts := p.accounts.map (fun a =>
      if a.data.email = r.email then uploadApply a r else a) }
  else
    .ok { p with accounts := p.accounts ++ [newAccountFromUpload r] }

/-- C2: processing an account upload whose `task_id`/`worker_id` match
an active lease on an existing account, with empty `full_name`,
`mail_provider` and `mail_password`, keeps those three fields from the
pre-existing record, overwrites authorization, cookies, config id and
csesidx with the uploaded values, sets the status to `pending`, and
clears the external task-id and lease fields. -/
theorem c2_upload_preserves_human_fields (p : PoolState) (a : Account)
    (r : UploadReq) (now : Nat)
    (ha : a ∈ p.accounts)
    (hemail : a.data.email = r.email)
    (hlease : r.taskID = a.externalTaskID ∧ r.workerID = a.externalLeaseOwner ∧
      a.externalTaskID ≠ "" ∧ now < a.externalLeaseUntil)
    (hempty : r.fullName = "" ∧ r.mailProvider = "" ∧ r.mailPassword = "")
    (hvalid : validUpload r = true) :
    ∃ q, processAccountUpload p r = .ok q ∧
      uploadApply a r ∈ q.accounts ∧
      (uploadApply a r).data.fullName = a.data.fullName ∧
      (uploadApply a r).data.mailProvider = a.data.mailProvider ∧
      (uploadApply a r).data.mailPassword = a.data.mailPassword ∧
      (uploadApply a r).data.authorization = r.authorization ∧
      (uploadApply a r).data.cookies = r.cookies ∧
      (uploadApply a r).data.configID = r.configID ∧
      (uploadApply a r).data.csesidx = r.csesidx ∧
      (uploadApply a r).status = AccStatus.pending ∧
      (uploadApply a r).externalTaskID = "" ∧
      (uploadApply a r).externalLeaseOwner = "" ∧
      (uploadApply a r).externalLeaseUntil = 0 := by
  obtain ⟨he1, he2, he3⟩ := hempty
  have hany : p.accounts.any (fun x => x.data.email = r.email) = true := by
    rw [List.any_eq_true]
    exact ⟨a, ha, by simp [hemail]⟩
  refine ⟨{ p with accounts := p.accounts.map (fun x =>
      if x.data.email = r.email then uploadApply x r else x) }, ?_, ?_, ?_⟩
  · simp [processAccountUpload, hvalid, hany]
  · have hmem := List.mem_map_of_mem
      (fun x => if x.data.email = r.email then uploadApply x r else x) ha
    simpa [hemail] using hmem
  · simp [uploadApply, mergeUpload, he1, he2, he3]

/-- Concrete pre-existing account used in the C2 witness. -/
def c2acc : Account :=
  { data :=
      { email := "refresh@example.com", fullName := "Old Name",
        mailProvider := "duckmail", mailPassword := "old-password",
        authorization := "Bearer old-auth", configID := "cfg-old",
        csesidx := "111",
        cookies := [⟨"__Secure-C_SES", "old", ".gemini.google"⟩] },
    status := AccStatus.pendingExternal,
    externalTaskID := "task-0", externalLeaseOwner := "worker-cycle",
    externalLeaseUntil := 100, externalFailCount := 0, externalRetryAt := 0 }

/-- Concrete refresh upload used in the C2 witness. -/
def c2req : UploadReq :=
  { email := "refresh@example.com", fullName := "", mailProvider := "",
    mailPassword := "", authorization := "Bearer new-auth",
    configID := "cfg-new", csesidx := "222", taskID := "task-0",
    workerID := "worker-cycle",
    cookies := [⟨"__Secure-C_SES", "new", ".gemini.google"⟩],
    isNew := false }

/-- C2 witness: the theorem applied to the concrete leased account and
refresh upload. -/
theorem c2_upload_witness :
    validUpload c2req = true ∧
    ∃ q, processAccountUpload ⟨[c2acc], 0, 1⟩ c2req = .ok q ∧
      uploadApply c2acc c2req ∈ q.accounts ∧
      (uploadApply c2acc c2req).data.fullName = c2acc.data.fullName ∧
      (uploadApply c2acc c2req).data.mailProvider = c2acc.data.mailProvider ∧
      (uploadApply c2acc c2req).data.mailPassword = c2acc.data.mailPassword ∧
      (uploadApply c2acc c2req).data.authorization = c2req.authorization ∧
      (uploadApply c2acc c2req).data.cookies = c2req.cookies ∧
      (uploadApply c2acc c2req).data.configID = c2req.configID ∧
      (uploadApply c2acc c2req).data.csesidx = c2req.csesidx ∧
      (uploadApply c2acc c2req).status = AccStatus.pending ∧
      (uploadApply c2acc c2req).externalTaskID = "" ∧
      (uploadApply c2acc c2req).externalLeaseOwner = "" ∧
      (uploadApply c2acc c2req).externalLeaseUntil = 0 :=
  ⟨by decide,
    c2_upload_preserves_human_fields ⟨[c2acc], 0, 1⟩ c2acc c2req 50
      (by decide) (by decide) (by decide) (by decide) (by decide)⟩

/-- The account as rewritten by a successful claim: fresh task id,
claiming worker as lease owner, lease deadline `now + leaseSec`. -/
def claimedAcc (a : Account) (w : String) (now leaseSec seq : Nat) : Account :=
  { a with
    externalTaskID := mkTaskId seq,
    externalLeaseOwner := w,
    externalLeaseUntil := now + leaseSec }

/-- C3: with a single `pending_external` account carrying no unexpired
lease and past its retry window, two `Claim(limit = 1)` calls by
distinct workers — the atomic pool operations of the two concurrent
claims, in their serialization order — hand the task to exactly the
first one: the first call receives the single slip, the second receives
none, and afterwards the only unexpired lease on the account is the one
held by the first worker's fresh task id. -/
theorem c3_claim_exclusive (a : Account) (w1 w2 : String)
    (now1 now2 leaseSec seq ex : Nat)
    (helig : claimEligible now1 a = true)
    (hpos : 0 < leaseSec) (h12 : now1 ≤ now2) (hconc : now2 < now1 + leaseSec)
    (hww : w1 ≠ w2) :
    (claimTasks now1 w1 1 leaseSec ⟨[a], ex, seq⟩).1 =
      [⟨a.data.email, mkTaskId seq, w1⟩] ∧
    (claimTasks now2 w2 1 leaseSec
      (claimTasks now1 w1 1 leaseSec ⟨[a], ex, seq⟩).2).1 = [] ∧
    ∃ a2, (claimTasks now2 w2 1 leaseSec
        (claimTasks now1 w1 1 leaseSec ⟨[a], ex, seq⟩).2).2.accounts = [a2] ∧
      a2.externalTaskID = mkTaskId seq ∧
      a2.externalLeaseOwner = w1 ∧
      leaseActive now2 a2 = true := by
  have hstep1 : claimTasks now1 w1 1 leaseSec ⟨[a], ex, seq⟩ =
      ([⟨a.data.email, mkTaskId seq, w1⟩],
        ⟨[claimedAcc a w1 now1 leaseSec seq],
          ex + (if a.externalTaskID ≠ "" ∧ a.externalLeaseUntil ≤ now1 then 1 else 0),
          seq + 1⟩) := by
    simp [claimTasks, claimGo, helig, claimedAcc]
  have hlease2 : leaseActive now2 (claimedAcc a w1 now1 leaseSec seq) = true := by
    simp [leaseActive, claimedAcc, mkTaskId_ne_empty seq, hconc]
  have hinelig : claimEligible now2 (claimedAcc a w1 now1 leaseSec seq) = false := by
    simp [claimEligible, hlease2]
  refine ⟨by rw [hstep1], ?_, ?_⟩
  · rw [hstep1]
    simp [claimTasks, claimGo, hinelig]
  · refine ⟨claimedAcc a w1 now1 leaseSec seq, ?_, rfl, rfl, hlease2⟩
    rw [hstep1]
    simp [claimTasks, claimGo, hinelig]

/-- Concrete claimable account used in the C3 witness. -/
def c3acc : Account :=
  { data :=
      { email := "exclusive@example.com", fullName := "Tester",
        mailProvider := "chatgpt", mailPassword := "",
        authorization := "Bearer old-auth", configID := "cfg-old",
        csesidx := "1001",
        cookies := [⟨"__Secure-C_SES", "cookie", ".gemini.google"⟩] },
    status := AccStatus.pendingExternal,
    externalTaskID := "", externalLeaseOwner := "", externalLeaseUntil := 0,
    externalFailCount := 0, externalRetryAt := 0 }

/-- C3 witness: the theorem applied to one eligible account and the
workers "worker-a" and "worker-b" claiming at the same instant with a
120-second lease. -/
theorem c3_claim_witness :
    claimEligible 0 c3acc = true ∧
    (claimTasks 0 "worker-a" 1 120 ⟨[c3acc], 0, 0⟩).1 =
      [⟨c3acc.data.email, mkTaskId 0, "worker-a"⟩] ∧
    (claimTasks 0 "worker-b" 1 120
      (claimTasks 0 "worker-a" 1 120 ⟨[c3acc], 0, 0⟩).2).1 = [] ∧
    ∃ a2, (claimTasks 0 "worker-b" 1 120
        (claimTasks 0 "worker-a" 1 120 ⟨[c3acc], 0, 0⟩).2).2.accounts = [a2] ∧
      a2.externalTaskID = mkTaskId 0 ∧
      a2.externalLeaseOwner = "worker-a" ∧
      leaseActive 0 a2 = true :=
  ⟨by decide,
    c3_claim_exclusive c3acc "worker-a" "worker-b" 0 0 120 0 0
      (by decide) (by decide) (by decide) (by decide) (by decide)⟩

/-- C4: the `n`-th consecutive `MarkExternalRefreshFailed` (the account
entering with fail count `n - 1` and a matching task id and lease
owner) sets the fail count to `n`, sets `external_retry_at` exactly —
hence at least — `min(30 × 2^(n-1), ceiling)` seconds after the fail
instant, clears the task-id and lease fields, and makes the account
ineligible for every `Claim` call strictly before `external_retry_at`. -/
theorem c4_backoff_after_nth_fail (a : Account) (now n : Nat)
    (tid wid : String) (ex seq : Nat)
    (hn : 1 ≤ n)
    (hcount : a.externalFailCount = n - 1)
    (hmatch : a.externalTaskID = tid ∧ a.externalLeaseOwner = wid) :
    markExternalRefreshFailed now tid wid ⟨[a], ex, seq⟩ =
      .ok ⟨[failAccount now a], ex, seq⟩ ∧
    (failAccount now a).externalFailCount = n ∧
    (failAccount now a).externalRetryAt =
      now + min (30 * 2 ^ (n - 1)) backoffCeiling ∧
    now + min (30 * 2 ^ (n - 1)) backoffCeiling ≤
      (failAccount now a).externalRetryAt ∧
    (failAccount now a).externalTaskID = "" ∧
    (failAccount now a).externalLeaseOwner = "" ∧
    (failAccount now a).externalLeaseUntil = 0 ∧
    (∀ t, t < (failAccount now a).externalRetryAt →
      claimEligible t (failAccount now a) = false) ∧
    (∀ t w lim ls e2 s2, t < (failAccount now a).externalRetryAt →
      (claimTasks t w lim ls ⟨[failAccount now a], e2, s2⟩).1 = []) := by
  obtain ⟨hm1, hm2⟩ := hmatch
  have hsucc : a.externalFailCount + 1 = n := by omega
  have hmark : markExternalRefreshFailed now tid wid ⟨[a], ex, seq⟩ =
      .ok ⟨[failAccount now a], ex, seq⟩ := by
    simp [markExternalRefreshFailed, hm1, hm2]
  have hret : (failAccount now a).externalRetryAt =
      now + min (30 * 2 ^ (n - 1)) backoffCeiling := by
    simp [failAccount, backoff, hsucc]
  have hinelig : ∀ t, t < (failAccount now a).externalRetryAt →
      claimEligible t (failAccount now a) = false := by
    intro t ht
    have : ¬ (failAccount now a).externalRetryAt ≤ t := by omega
    simp [claimEligible, this]
  refine ⟨hmark, by simp [failAccount, hsucc], hret, le_of_eq hret.symm,
    rfl, rfl, rfl, hinelig, ?_⟩
  intro t w lim ls e2 s2 ht
  simp [claimTasks, claimGo, hinelig t ht]

/-- Concrete once-failed leased account used in the C4 witness. -/
def c4acc : Account :=
  { data :=
      { email := "backoff@example.com", fullName := "Tester",
        mailProvider := "chatgpt", mailPassword := "",
        authorization := "Bearer old-auth", configID := "cfg-old",
        csesidx := "1001",
        cookies := [⟨"__Secure-C_SES", "cookie", ".gemini.google"⟩] },
    status := AccStatus.pendingExternal,
    externalTaskID := "task-7", externalLeaseOwner := "worker-backoff",
    externalLeaseUntil := 1120, externalFailCount := 1, externalRetryAt := 0 }

/-- C4 witness: the theorem applied to the second consecutive failure
(`n = 2`) of a concrete account at time 1000; the backoff is 60
seconds. -/
theorem c4_backoff_witness :
    c4acc.externalFailCount = 2 - 1 ∧
    markExternalRefreshFailed 1000 "task-7" "worker-backoff" ⟨[c4acc], 0, 8⟩ =
      .ok ⟨[failAccount 1000 c4acc], 0, 8⟩ ∧
    (failAccount 1000 c4acc).externalFailCount = 2 ∧
    (failAccount 1000 c4acc).externalRetryAt = 1000 + min (30 * 2 ^ (2 - 1)) backoffCeiling ∧
    (failAccount 1000 c4acc).externalRetryAt = 1060 :=
  have h := c4_backoff_after_nth_fail c4acc 1000 2 "task-7" "worker-backoff" 0 8
    (by decide) (by decide) (by decide)
  ⟨by decide, h.1, h.2.1, h.2.2.1, by decide⟩

/-! ### Prompt assembly (`main.go`: `parseMessageContent`,
`extractSystemPrompt`, `convertMessagesToPrompt`,
`needsConversationContext`, and `streamChat` lines 2408-2430) -/

/-- A content part of a message (`ContentPart`, main.go:1397 and the
part switch of `parseMessageContent`). -/
inductive ContentPart where
  | text (t : String)
  | imageUrl (u : String)
  | videoUrl (u : String)
  | fileUrl (u : String) (mime : String)
  | other
  deriving DecidableEq, Repr

/-- A message `content` field: a plain string or a part list
(main.go:1391). -/
inductive MsgContent where
  | str (s : String)
  | parts (ps : List ContentPart)
  deriving DecidableEq, Repr

/-- A tool call carried by an assistant message. -/
structure ToolCallRec where
  name : String
  args : String
  deriving DecidableEq, Repr

/-- A chat message (`Message`, main.go:1389). -/
structure Msg where
  role : String
  name : String
  content : MsgContent
  toolCalls : List ToolCallRec
  deriving DecidableEq, Repr

/-- Text contribution of one content part (`parseMessageContent`:
only `text` parts add to the text). -/
def partText : ContentPart → String
  | .text t => t
  | _ => ""

/-- The text component of `parseMessageContent` (main.go:1678): a
string content is taken whole; a part list concatenates its text
parts. -/
def parseMessageText (m : Msg) : String :=
  match m.content with
  | .str s => s
  | .parts ps => ps.foldl (fun acc p => acc ++ partText p) ""

/-- Model of `extractSystemPrompt` (main.go:1932): text of the first
`system` message. -/
def extractSystemPrompt : List Msg → String
  | [] => ""
  | m :: rest =>
    if m.role = "system" then parseMessageText m else extractSystemPrompt rest

/-- Model of `needsConversationContext` (main.go:2256): some message
has role `assistant`, `tool` or `tool_result`. -/
def needsConversationContext (msgs : List Msg) : Bool :=
  msgs.any (fun m =>
    m.role = "assistant" || m.role = "tool" || m.role = "tool_result")

/-- Loop body of `convertMessagesToPrompt` (main.go:1944-1976),
threading the accumulated system prompt and dialog parts. -/
def convertLoop : List Msg → String → List String → String × List String
  | [], sys, parts => (sys, parts)
  | m :: rest, sys, parts =>
    let text := parseMessageText m
    if text = "" ∧ m.role ≠ "assistant" then convertLoop rest sys parts
    else if m.role = "system" then
      convertLoop rest (if sys ≠ "" then sys ++ "\n" ++ text else text) parts
    else if m.role = "user" ∨ m.role = "human" then
      convertLoop rest sys (parts ++ ["Human: " ++ text])
    else if m.role = "assistant" then
      if m.toolCalls ≠ [] then
        convertLoop rest sys (parts ++ m.toolCalls.map (fun tc =>
          "Assistant: [调用工具 " ++ tc.name ++ "(" ++ tc.args ++ ")]"))
      else if text ≠ "" then
        convertLoop rest sys (parts ++ ["Assistant: " ++ text])
      else convertLoop rest sys parts
    else if m.role = "tool" ∨ m.role = "tool_result" then
      convertLoop rest sys (parts ++ ["Tool Result [" ++ m.name ++ "]: " ++ text])
    else convertLoop rest sys parts

/-- Model of `convertMessagesToPrompt` (main.go:1944-1992): run the
loop, wrap a non-empty system prompt in `<system>…</system>`, join
the dialog parts with blank lines and append the bare `Assistant:`
cue. -/
def convertMessagesToPrompt (msgs : List Msg) : String :=
  let r := convertLoop msgs "" []
  (if r.1 ≠ "" then "<system>\n" ++ r.1 ++ "\n</system>\n\n" else "") ++
    (if r.2 ≠ [] then String.intercalate "\n\n" r.2 else "") ++ "\n\nAssistant:"

/-- Model of the prompt assembly of `streamChat` (main.go:2408-2430):
multi-turn conversations go through `convertMessagesToPrompt`; a
conversation without assistant/tool turns sends the last message's raw
text, wrapped with the system prompt and dialog tags when a system
prompt exists. -/
def buildTextContent (msgs : List Msg) : String :=
  let systemPrompt := extractSystemPrompt msgs
  if needsConversationContext msgs then convertMessagesToPrompt msgs
  else
    let lastMsg := msgs.getLastD ⟨"", "", .str "", []⟩
    let userText := parseMessageText lastMsg
    if systemPrompt ≠ "" then
      "<system>\n" ++ systemPrompt ++ "\n</system>\n\nHuman: " ++ userText ++
        "\n\nAssistant:"
    else userText

/-- Specification-side tagging of one turn: `Human:`, `Assistant:`
(tool calls expanded) and `Tool Result [name]:` speaker tags; system
turns and empty turns contribute nothing to the dialog. -/
def tagTurn (m : Msg) : List String :=
  let text := parseMessageText m
  if m.role = "system" then []
  else if m.role = "user" ∨ m.role = "human" then
    if text = "" then [] else ["Human: " ++ text]
  else if m.role = "assistant" then
    if m.toolCalls ≠ [] then
      m.toolCalls.map (fun tc =>
        "Assistant: [调用工具 " ++ tc.name ++ "(" ++ tc.args ++ ")]")
    else if text ≠ "" then ["Assistant: " ++ text]
    else []
  else if m.role = "tool" ∨ m.role = "tool_result" then
    if text = "" then [] else ["Tool Result [" ++ m.name ++ "]: " ++ text]
  else []

/-- Join a new system text in front of an already-merged suffix. -/
def sysJoin (t b : String) : String :=
  if b = "" then t else t ++ "\n" ++ b

/-- Specification-side merged system prompt: the non-empty texts of the
`system` turns joined by newlines, in order. -/
def mergedSystemSpec : List Msg → String
  | [] => ""
  | m :: rest =>
    if m.role = "system" ∧ parseMessageText m ≠ "" then
      sysJoin (parseMessageText m) (mergedSystemSpec rest)
    else mergedSystemSpec rest

/-- Combination of an accumulated system prefix with a merged suffix. -/
def sysAcc (s b : String) : String :=
  if s = "" then b else if b = "" then s else s ++ "\n" ++ b

theorem strAppend_ne_empty_left (a b : String) (h : a ≠ "") : a ++ b ≠ "" := by
  intro hab
  apply h
  have hd := congrArg String.data hab
  rw [String.data_append] at hd
  have ha : a.data = [] := (List.append_eq_nil.mp hd).1
  exact String.ext (by rw [ha])

theorem sysAcc_empty_right (s : String) : sysAcc s "" = s := by
  by_cases hs : s = "" <;> simp [sysAcc, hs]

theorem sysJoin_ne_empty (t b : String) (ht : t ≠ "") : sysJoin t b ≠ "" := by
  unfold sysJoin
  by_cases hb : b = ""
  · simpa [hb]
  · rw [if_neg hb]
    exact strAppend_ne_empty_left _ _ (strAppend_ne_empty_left _ _ ht)

theorem sysAcc_step (sys t X : String) (ht : t ≠ "") :
    sysAcc (if sys ≠ "" then sys ++ "\n" ++ t else t) X =
      sysAcc sys (sysJoin t X) := by
  by_cases hs : sys = ""
  · simp [hs, sysAcc, sysJoin_ne_empty t X ht, sysJoin, ht]
  · have hst : sys ++ "\n" ++ t ≠ "" :=
      strAppend_ne_empty_left _ _ (strAppend_ne_empty_left _ _ hs)
    by_cases hX : X = ""
    · simp [hX, sysAcc, sysJoin, hst, hs, ht]
    · have h1 : sys ++ ("\n" ++ t) ≠ "" := strAppend_ne_empty_left _ _ hs
      have h2 : t ++ ("\n" ++ X) ≠ "" := strAppend_ne_empty_left _ _ ht
      simp [sysAcc, sysJoin, hs, hX, h1, h2, String.append_assoc]

theorem tagTurn_of_skipped (m : Msg) (ht : parseMessageText m = "")
    (hr : m.role ≠ "assistant") : tagTurn m = [] := by
  unfold tagTurn
  by_cases h1 : m.role = "system" <;>
    by_cases h2 : m.role = "user" ∨ m.role = "human" <;>
      by_cases h4 : m.role = "tool" ∨ m.role = "tool_result" <;>
        simp [h1, h2, h4, hr, ht]

theorem mergedSystemSpec_cons_other (m : Msg) (rest : List Msg)
    (h : ¬ (m.role = "system" ∧ parseMessageText m ≠ "")) :
    mergedSystemSpec (m :: rest) = mergedSystemSpec rest := by
  simp only [mergedSystemSpec]
  rw [if_neg h]

theorem convertLoop_eq (msgs : List Msg) : ∀ sys parts,
    convertLoop msgs sys parts =
      (sysAcc sys (mergedSystemSpec msgs), parts ++ msgs.flatMap tagTurn) := by
  induction msgs with
  | nil =>
    intro sys parts
    simp [convertLoop, mergedSystemSpec, sysAcc_empty_right]
  | cons m rest ih =>
    intro sys parts
    by_cases hskip : parseMessageText m = "" ∧ m.role ≠ "assistant"
    · have htag : tagTurn m = [] := tagTurn_of_skipped m hskip.1 hskip.2
      have hm : mergedSystemSpec (m :: rest) = mergedSystemSpec rest :=
        mergedSystemSpec_cons_other m rest (by simp [hskip.1])
      have hstep : convertLoop (m :: rest) sys parts = convertLoop rest sys parts := by
        simp only [convertLoop]
        simp [hskip]
      rw [hstep, ih sys parts, hm]
      simp [htag]
    · by_cases hsysr : m.role = "system"
      · have ht : parseMessageText m ≠ "" := by
          intro h0
          exact hskip ⟨h0, by simp [hsysr]⟩
        have hstep : convertLoop (m :: rest) sys parts =
            convertLoop rest
              (if sys ≠ "" then sys ++ "\n" ++ parseMessageText m
               else parseMessageText m) parts := by
          simp only [convertLoop]
          simp [ht, hsysr]
        have hm : mergedSystemSpec (m :: rest) =
            sysJoin (parseMessageText m) (mergedSystemSpec rest) := by
          simp only [mergedSystemSpec]
          simp [hsysr, ht]
        have htag : tagTurn m = [] := by
          unfold tagTurn
          simp [hsysr]
        rw [hstep, ih, hm, sysAcc_step sys (parseMessageText m)
          (mergedSystemSpec rest) ht]
        simp [htag]
      · have hm : mergedSystemSpec (m :: rest) = mergedSystemSpec rest :=
          mergedSystemSpec_cons_other m rest (by simp [hsysr])
        have hfin : ∀ q : List String,
            convertLoop (m :: rest) sys parts = convertLoop rest sys (parts ++ q) →
            tagTurn m = q →
            convertLoop (m :: rest) sys parts =
              (sysAcc sys (mergedSystemSpec (m :: rest)),
                parts ++ (m :: rest).flatMap tagTurn) := by
          intro q hstep htag
          rw [hstep, ih, hm]
          simp [htag.symm, List.append_assoc]
        by_cases huser : m.role = "user" ∨ m.role = "human"
        · have ht : parseMessageText m ≠ "" := by
            intro h0
            have := hskip ⟨h0, ?_⟩
            · exact this
            · intro hass
              rcases huser with h | h <;> rw [hass] at h <;> simp at h
          refine hfin ["Human: " ++ parseMessageText m] ?_ ?_
          · simp only [convertLoop]
            simp [ht, hsysr, huser]
          · unfold tagTurn
            simp [hsysr, huser, ht]
        · by_cases hass : m.role = "assistant"
          · by_cases htc : m.toolCalls = []
            · by_cases ht : parseMessageText m = ""
              · refine hfin [] ?_ ?_
                · simp only [convertLoop]
                  simp [ht, hsysr, huser, hass, htc]
                · unfold tagTurn
                  simp [hsysr, huser, hass, htc, ht]
              · refine hfin ["Assistant: " ++ parseMessageText m] ?_ ?_
                · simp only [convertLoop]
                  simp [ht, hsysr, huser, hass, htc]
                · unfold tagTurn
                  simp [hsysr, huser, hass, htc, ht]
            · refine hfin (m.toolCalls.map (fun tc =>
                "Assistant: [调用工具 " ++ tc.name ++ "(" ++ tc.args ++ ")]")) ?_ ?_
              · simp only [convertLoop]
                by_cases ht : parseMessageText m = "" <;>
                  simp [ht, hsysr, huser, hass, htc]
              · unfold tagTurn
                simp [hsysr, huser, hass, htc]
          · by_cases htool : m.role = "tool" ∨ m.role = "tool_result"
            · have ht : parseMessageText m ≠ "" := by
                intro h0
                exact hskip ⟨h0, hass⟩
              refine hfin ["Tool Result [" ++ m.name ++ "]: " ++ parseMessageText m] ?_ ?_
              · simp only [convertLoop]
                simp [ht, hsysr, huser, hass, htool]
              · unfold tagTurn
                simp [hsysr, huser, hass, htool, ht]
            · have ht : parseMessageText m ≠ "" := by
                intro h0
                exact hskip ⟨h0, hass⟩
              refine hfin [] ?_ ?_
              · simp only [convertLoop]
                simp [ht, hsysr, huser, hass, htool]
              · unfold tagTurn
                simp [hsysr, huser, hass, htool]

/-- C9: when the conversation contains an assistant or tool turn, the
prompt sent upstream is the turns flattened into one dialog with the
`Human:`, `Assistant:` and `Tool Result [name]:` speaker tags, the
merged system prompt wrapped in `<system>…</system>`, and the bare
`Assistant:` cue at the end; when it contains none (in particular for a
single user turn), the prompt is the last message's raw text — wrapped,
when a system prompt is present, in the `<system>` block with the
`Human:`/`Assistant:` dialog tags. -/
theorem c9_prompt_assembly (msgs : List Msg) (hne : msgs ≠ []) :
    (needsConversationContext msgs = true →
      buildTextContent msgs =
        (if mergedSystemSpec msgs = "" then "" else
          "<system>\n" ++ mergedSystemSpec msgs ++ "\n</system>\n\n") ++
        String.intercalate "\n\n" (msgs.flatMap tagTurn) ++ "\n\nAssistant:") ∧
    (needsConversationContext msgs = false →
      buildTextContent msgs =
        (if extractSystemPrompt msgs = "" then
          parseMessageText (msgs.getLastD ⟨"", "", .str "", []⟩)
         else
          "<system>\n" ++ extractSystemPrompt msgs ++ "\n</system>\n\nHuman: " ++
            parseMessageText (msgs.getLastD ⟨"", "", .str "", []⟩) ++
            "\n\nAssistant:")) := by
  constructor
  · intro hctx
    unfold buildTextContent
    rw [if_pos hctx]
    unfold convertMessagesToPrompt
    rw [convertLoop_eq msgs "" []]
    have hacc : sysAcc "" (mergedSystemSpec msgs) = mergedSystemSpec msgs := by
      simp [sysAcc]
    simp only [hacc, List.nil_append]
    by_cases hsys : mergedSystemSpec msgs = ""
    · by_cases hparts : msgs.flatMap tagTurn = [] <;>
        simp [hsys, hparts, String.intercalate]
    · by_cases hparts : msgs.flatMap tagTurn = [] <;>
        simp [hsys, hparts, String.intercalate]
  · intro hctx
    unfold buildTextContent
    rw [if_neg (by simp [hctx])]
    by_cases hsys : extractSystemPrompt msgs = "" <;> simp [hsys]

/-- Concrete two-turn conversation (system, user, assistant, user) used
in the C9 witness, plus a single-turn conversation with a system
prompt. -/
def c9multi : List Msg :=
  [⟨"system", "", .str "be terse", []⟩,
   ⟨"user", "", .str "hi", []⟩,
   ⟨"assistant", "", .str "hello", []⟩,
   ⟨"user", "", .str "how are you", []⟩]

/-- Single-user-turn conversation with a system prompt for the C9
witness. -/
def c9single : List Msg :=
  [⟨"system", "", .str "be terse", []⟩,
   ⟨"user", "", .str "hi", []⟩]

/-- C9 witness: the theorem applied to a concrete multi-turn and a
concrete single-turn conversation. -/
theorem c9_prompt_witness :
    needsConversationContext c9multi = true ∧
    buildTextContent c9multi =
      (if mergedSystemSpec c9multi = "" then "" else
        "<system>\n" ++ mergedSystemSpec c9multi ++ "\n</system>\n\n") ++
      String.intercalate "\n\n" (c9multi.flatMap tagTurn) ++ "\n\nAssistant:" ∧
    needsConversationContext c9single = false ∧
    buildTextContent c9single =
      (if extractSystemPrompt c9single = "" then
        parseMessageText (c9single.getLastD ⟨"", "", .str "", []⟩)
       else
        "<system>\n" ++ extractSystemPrompt c9single ++ "\n</system>\n\nHuman: " ++
          parseMessageText (c9single.getLastD ⟨"", "", .str "", []⟩) ++
          "\n\nAssistant:") :=
  ⟨by decide,
    (c9_prompt_assembly c9multi (by decide)).1 (by decide),
    by decide,
    (c9_prompt_assembly c9single (by decide)).2 (by decide)⟩

/-! ### Upstream response parsing (`main.go`: `streamChat` lines
2791-2830).

The dispatch order — strict JSON-array decode, then
`utils.ParseIncompleteJSONArray`, then `utils.ParseNDJSON` — is
translated from the source.  The three parsers themselves live in the
Go standard library and in a `utils` package that is not part of the
tree, so they are modelled from the spec (§4.4 "Response parsing") over
a small executable JSON parser. -/

/-- Skip JSON whitespace. -/
def skipWs (l : List Char) : List Char :=
  l.dropWhile isWs

/-- JSON values. -/
inductive JVal where
  | jnull
  | jbool (b : Bool)
  | jnum (digits : String)
  | jstr (s : String)
  | jarr (xs : List JVal)
  | jobj (fields : List (String × JVal))

/-- A parsed upstream event: one JSON object, as in Go's
`map[string]interface` element type. -/
abbrev JObj := List (String × JVal)

/-- Parse the body of a JSON string literal after its opening quote;
a backslash escapes the following character. -/
def parseStrBody : List Char → List Char → Option (String × List Char)
  | [], _ => none
  | '"' :: r, acc => some (⟨acc.reverse⟩, r)
  | '\\' :: c :: r, acc => parseStrBody r (c :: acc)
  | '\\' :: [], _ => none
  | c :: r, acc => parseStrBody r (c :: acc)

/-- Require the literal characters as a list head. -/
def stripLit (lit : List Char) (l : List Char) : Option (List Char) :=
  if lit.isPrefixOf l then some (l.drop lit.length) else none

/-- Characters that may appear in a JSON number. -/
def isNumChar (c : Char) : Bool :=
  c.isDigit || c = '-' || c = '+' || c = '.' || c = 'e' || c = 'E'

/-- Parse a JSON number as its character run. -/
def parseNum (l : List Char) : Option (JVal × List Char) :=
  let ds := l.takeWhile isNumChar
  if ds.isEmpty then none else some (.jnum ⟨ds⟩, l.drop ds.length)

mutual

/-- Modelled from the spec: recursive-descent JSON value parser,
fuelled to bound nesting. -/
def parseValue : Nat → List Char → Option (JVal × List Char)
  | 0, _ => none
  | f + 1, l =>
    match skipWs l with
    | '"' :: r =>
      match parseStrBody r [] with
      | some (s, r2) => some (.jstr s, r2)
      | none => none
    | '{' :: r =>
      match skipWs r with
      | '}' :: r2 => some (.jobj [], r2)
      | _ =>
        match parseFields f r with
        | some (fs, r2) => some (.jobj fs, r2)
        | none => none
    | '[' :: r =>
      match skipWs r with
      | ']' :: r2 => some (.jarr [], r2)
      | _ =>
        match parseElems f r with
        | some (xs, r2) => some (.jarr xs, r2)
        | none => none
    | 't' :: r =>
      match stripLit ['r', 'u', 'e'] r with
      | some r2 => some (.jbool true, r2)
      | none => none
    | 'f' :: r =>
      match stripLit ['a', 'l', 's', 'e'] r with
      | some r2 => some (.jbool false, r2)
      | none => none
    | 'n' :: r =>
      match stripLit ['u', 'l', 'l'] r with
      | some r2 => some (.jnull, r2)
      | none => none
    | c :: r => if isNumChar c then parseNum (c :: r) else none
    | [] => none

/-- Parse the fields of a non-empty JSON object after its opening
brace. -/
def parseFields : Nat → List Char → Option (List (String × JVal) × List Char)
  | 0, _ => none
  | f + 1, l =>
    match skipWs l with
    | '"' :: r =>
      match parseStrBody r [] with
      | none => none
      | some (k, r2) =>
        match skipWs r2 with
        | ':' :: r3 =>
          match parseValue f r3 with
          | none => none
          | some (v, r4) =>
            match skipWs r4 with
            | ',' :: r5 =>
              match parseFields f r5 with
              | some (fs, r6) => some ((k, v) :: fs, r6)
              | none => none
            | '}' :: r5 => some ([(k, v)], r5)
            | _ => none
        | _ => none
    | _ => none

/-- Parse the elements of a non-empty JSON array after its opening
bracket. -/
def parseElems : Nat → List Char → Option (List JVal × List Char)
  | 0, _ => none
  | f + 1, l =>
    match parseValue f l with
    | none => none
    | some (v, r) =>
      match skipWs r with
      | ',' :: r2 =>
        match parseElems f r2 with
        | some (xs, r3) => some (v :: xs, r3)
        | none => none
      | ']' :: r2 => some ([v], r2)
      | _ => none

end

/-- Parse the comma-separated objects of a non-empty JSON array of
objects, up to and including the closing bracket.  Both success shapes
produce a non-empty object list. -/
def parseObjsStrict : Nat → List Char → Option (List JObj × List Char)
  | 0, _ => none
  | f + 1, l =>
    match parseValue f l with
    | some (.jobj fs, r) =>
      match skipWs r with
      | ',' :: r2 =>
        match parseObjsStrict f r2 with
        | some (os, r3) => some (fs :: os, r3)
        | none => none
      | ']' :: r2 => some ([fs], r2)
      | _ => none
    | _ => none

/-- Modelled from the spec: the strict JSON-array decode of the
upstream body (Go `json.Unmarshal` into a slice of objects): a single
top-level array of objects followed only by whitespace. -/
def decodeStrictEvents (s : String) : Option (List JObj) :=
  match skipWs s.data with
  | [] => none
  | c :: r =>
    if c = '[' then
      match skipWs r with
      | [] => none
      | c2 :: r2 =>
        if c2 = ']' then (if (skipWs r2).isEmpty then some [] else none)
        else
          match parseObjsStrict (s.data.length + 1) r with
          | some (os, r3) => if (skipWs r3).isEmpty then some os else none
          | none => none
    else none

/-- Modelled from the spec: recover the leading complete objects of a
(possibly truncated) JSON array, stopping at the first element that is
not a complete object. -/
def recoverObjs : Nat → List Char → List JObj
  | 0, _ => []
  | f + 1, l =>
    match parseValue (l.length + 1) l with
    | some (.jobj fs, r) =>
      match skipWs r with
      | ',' :: r2 => fs :: recoverObjs f r2
      | _ => [fs]
    | _ => []

/-- Modelled from the spec: `utils.ParseIncompleteJSONArray` — the
tolerant parse that recovers a prefix of complete objects from a
truncated array, returning nothing (Go `nil`) when no object is
recovered. -/
def parseIncompleteJSONArray (s : String) : Option (List JObj) :=
  match skipWs s.data with
  | '[' :: r =>
    let os := recoverObjs (r.length + 1) r
    if os.isEmpty then none else some os
  | _ => none

/-- Modelled from the spec: one line of newline-delimited JSON. -/
def parseNDJSONLine (line : String) : Option JObj :=
  match parseValue (line.data.length + 1) line.data with
  | some (.jobj fs, r) => if (skipWs r).isEmpty then some fs else none
  | _ => none

/-- Modelled from the spec: `utils.ParseNDJSON` — split on newlines and
keep the lines that parse as JSON objects. -/
def parseNDJSON (s : String) : List JObj :=
  (s.splitOn "\n").filterMap parseNDJSONLine

/-- The content gate of the attempt loop (main.go:2705-2711): a body
reaches the parsing stage only when it contains one of the quoted
content markers. -/
def hasContentGate (s : String) : Bool :=
  strContains s "\"text\"" || strContains s "\"file\"" ||
    strContains s "\"inlineData\"" || strContains s "\"functionCall\""

/-- Model of the parse dispatch (main.go:2791-2828): strict decode
first; on failure the tolerant parse; when that yields nothing,
newline-delimited JSON; `none` is the "JSON Parse Error" answer. -/
def parseUpstreamBody (s : String) : Option (List JObj) :=
  match decodeStrictEvents s with
  | some l => some l
  | none =>
    match parseIncompleteJSONArray s with
    | some l => some l
    | none =>
      let nd := parseNDJSON s
      if nd.isEmpty then none else some nd

theorem parseObjsStrict_ne_nil : ∀ f l os r,
    parseObjsStrict f l = some (os, r) → os ≠ [] := by
  intro f
  induction f with
  | zero =>
    intro l os r h
    simp [parseObjsStrict] at h
  | succ f ih =>
    intro l os r h
    simp only [parseObjsStrict] at h
    split at h
    · split at h
      · split at h
        · simp only [Option.some.injEq, Prod.mk.injEq] at h
          rcases h with ⟨h1, h2⟩
          intro hnil
          rw [← h1] at hnil
          simp at hnil
        · simp at h
      · simp only [Option.some.injEq, Prod.mk.injEq] at h
        rcases h with ⟨h1, h2⟩
        intro hnil
        rw [← h1] at hnil
        simp at hnil
      · simp at h
    · simp at h

theorem decodeStrict_empty_shape (s : String)
    (h : decodeStrictEvents s = some []) :
    ∃ r r2, skipWs s.data = '[' :: r ∧ skipWs r = ']' :: r2 ∧ skipWs r2 = [] := by
  unfold decodeStrictEvents at h
  split at h
  · exact absurd h (by simp)
  · rename_i c r h0
    by_cases hc : c = '['
    · subst hc
      rw [if_pos rfl] at h
      split at h
      · exact absurd h (by simp)
      · rename_i c2 r2 h1
        by_cases hc2 : c2 = ']'
        · subst hc2
          rw [if_pos rfl] at h
          refine ⟨r, r2, h0, h1, ?_⟩
          by_cases he : (skipWs r2).isEmpty = true
          · exact List.isEmpty_iff.mp he
          · rw [if_neg he] at h
            exact absurd h (by simp)
        · rw [if_neg hc2] at h
          split at h
          · rename_i os r3 hp
            have hos := parseObjsStrict_ne_nil _ _ os r3 hp
            by_cases he : (skipWs r3).isEmpty = true
            · rw [if_pos he] at h
              simp at h
              exact absurd h hos
            · rw [if_neg he] at h
              exact absurd h (by simp)
          · exact absurd h (by simp)
    · rw [if_neg hc] at h
      exact absurd h (by simp)

theorem isPrefixOf_mem : ∀ n h : List Char, n.isPrefixOf h = true →
    ∀ c ∈ n, c ∈ h := by
  intro n
  induction n with
  | nil =>
    intro h _ c hc
    simp at hc
  | cons a t ih =>
    intro h hp c hc
    cases h with
    | nil => simp [List.isPrefixOf] at hp
    | cons b s =>
      rw [List.isPrefixOf] at hp
      simp only [Bool.and_eq_true, beq_iff_eq] at hp
      rcases hp with ⟨hab, hts⟩
      rcases List.mem_cons.mp hc with hca | hct
      · exact List.mem_cons.mpr (Or.inl (hca.trans hab))
      · exact List.mem_cons.mpr (Or.inr (ih s hts c hct))

theorem listContainsSub_subset : ∀ hay needle : List Char,
    listContainsSub hay needle = true → ∀ c ∈ needle, c ∈ hay := by
  intro hay
  induction hay with
  | nil =>
    intro needle h c hc
    rw [listContainsSub] at h
    simp only [Bool.or_eq_true] at h
    rcases h with h1 | h1
    · exact isPrefixOf_mem needle [] h1 c hc
    · simp at h1
  | cons a t ih =>
    intro needle h c hc
    rw [listContainsSub] at h
    simp only [Bool.or_eq_true] at h
    rcases h with h1 | h1
    · exact isPrefixOf_mem needle (a :: t) h1 c hc
    · exact List.mem_cons.mpr (Or.inr (ih needle h1 c hc))

theorem gate_has_quote (s : String) (h : hasContentGate s = true) :
    ('"' : Char) ∈ s.data := by
  unfold hasContentGate strContains at h
  simp only [Bool.or_eq_true] at h
  rcases h with ((h1 | h1) | h1) | h1 <;>
    exact listContainsSub_subset _ _ h1 '"' (by decide)

theorem decodeStrict_some_nil_no_quote (s : String)
    (h : decodeStrictEvents s = some []) : ('"' : Char) ∉ s.data := by
  obtain ⟨r, r2, h1, h2, h3⟩ := decodeStrict_empty_shape s h
  intro hq
  have hs : s.data = s.data.takeWhile isWs ++ skipWs s.data := by
    unfold skipWs
    exact (List.takeWhile_append_dropWhile isWs s.data).symm
  rw [hs, h1] at hq
  rcases List.mem_append.mp hq with hw | hc
  · exact absurd (List.mem_takeWhile_imp hw) (by decide)
  · rcases List.mem_cons.mp hc with he | hr
    · exact absurd he (by decide)
    · have hrd : r = r.takeWhile isWs ++ skipWs r := by
        unfold skipWs
        exact (List.takeWhile_append_dropWhile isWs r).symm
      rw [hrd, h2] at hr
      rcases List.mem_append.mp hr with hw | hc2
      · exact absurd (List.mem_takeWhile_imp hw) (by decide)
      · rcases List.mem_cons.mp hc2 with he | hr3
        · exact absurd he (by decide)
        · have hr2d : r2 = r2.takeWhile isWs ++ skipWs r2 := by
            unfold skipWs
            exact (List.takeWhile_append_dropWhile isWs r2).symm
          rw [hr2d, h3, List.append_nil] at hr3
          exact absurd (List.mem_takeWhile_imp hr3) (by decide)

/-- C8: for every upstream body that passes the content gate of the
attempt loop (the bodies the pipeline actually parses), the dispatcher
uses the strict JSON-array decode when it succeeds; only on its failure
the tolerant recovery of a truncated array's object prefix; only when
that yields no objects the newline-delimited parse; and the request is
answered with a parse error exactly when all three stages yield an
empty event list. -/
theorem c8_response_parse_order (s : String) (hgate : hasContentGate s = true) :
    (∀ l, decodeStrictEvents s = some l → parseUpstreamBody s = some l) ∧
    (decodeStrictEvents s = none →
      ∀ l, parseIncompleteJSONArray s = some l → parseUpstreamBody s = some l) ∧
    (decodeStrictEvents s = none → parseIncompleteJSONArray s = none →
      parseNDJSON s ≠ [] → parseUpstreamBody s = some (parseNDJSON s)) ∧
    (parseUpstreamBody s = none ↔
      ((decodeStrictEvents s = none ∨ decodeStrictEvents s = some []) ∧
        parseIncompleteJSONArray s = none ∧ parseNDJSON s = [])) := by
  refine ⟨?_, ?_, ?_, ?_, ?_⟩
  · intro l h
    simp [parseUpstreamBody, h]
  · intro h1 l h2
    simp [parseUpstreamBody, h1, h2]
  · intro h1 h2 h3
    simp [parseUpstreamBody, h1, h2, List.isEmpty_iff, h3]
  · intro h
    unfold parseUpstreamBody at h
    cases hd : decodeStrictEvents s with
    | some l => rw [hd] at h; simp at h
    | none =>
      rw [hd] at h
      cases hti : parseIncompleteJSONArray s with
      | some l => rw [hti] at h; simp at h
      | none =>
        rw [hti] at h
        by_cases hnd : (parseNDJSON s).isEmpty = true
        · exact ⟨Or.inl rfl, rfl, List.isEmpty_iff.mp hnd⟩
        · simp [hnd] at h
  · rintro ⟨h1 | h1, h2, h3⟩
    · simp [parseUpstreamBody, h1, h2, h3]
    · exact absurd (gate_has_quote s hgate) (decodeStrict_some_nil_no_quote s h1)

/-- Concrete upstream body for the C8 witness: a well-formed JSON array
with one object whose value contains the `"text"` marker. -/
def c8body : String := "[\x7b\"a\":\"text\"\x7d]"

/-- C8 witness: the theorem applied to the concrete body. -/
theorem c8_response_parse_witness :
    hasContentGate c8body = true ∧
    (parseUpstreamBody c8body = none ↔
      ((decodeStrictEvents c8body = none ∨ decodeStrictEvents c8body = some []) ∧
        parseIncompleteJSONArray c8body = none ∧ parseNDJSON c8body = [])) :=
  ⟨by decide, (c8_response_parse_order c8body (by decide)).2.2.2⟩

end B2A
